import Mathlib

/-!
Shallow embedding of the core of the `ai-lint` repository
(`src/cache-manager.ts`, `src/ai-client.ts`, `src/linter-engine.ts`)
together with theorems checking the specification's claims about it.

Conventions:
* TypeScript strings are Lean `String`s; JS objects used as string-keyed
  maps become functions `String → Option _`.
* Machine integers of the source are `Nat` (no overflow is reachable in
  the modelled code paths).
* Asynchronous calls are modelled by deterministic oracles; the engine's
  `p-limit` pool is modelled sequentially (results are independent of
  completion order for a deterministic client).
-/

namespace AiLint

/-- Embedding of `type Severity = 'error' | 'warning'` from `types.ts`. -/
inductive Severity where
  | error
  | warning
deriving DecidableEq, Repr

/-- Embedding of `interface LintRule` from `types.ts` (the optional model override is
kept as an uninterpreted `Option String`; model resolution is outside the
modelled claims). -/
structure LintRule where
  id : String
  name : String
  severity : Severity
  glob : String
  exclude : Option String
  prompt : String
  model : Option String
deriving DecidableEq, Repr

/-- Embedding of `interface LintJob` from `types.ts`. -/
structure LintJob where
  rule : LintRule
  filePath : String
  fileContent : String
  fileHash : String
  promptHash : String
deriving DecidableEq, Repr

/-- Embedding of `interface LintResult` from `types.ts`; the optional `api_error`
boolean is modelled as a `Bool` whose absence is `false`. -/
structure LintResult where
  rule_id : String
  rule_name : String
  file : String
  severity : Severity
  pass : Bool
  message : String
  line : Option Int
  duration_ms : Nat
  cached : Bool
  api_error : Bool
deriving DecidableEq, Repr

/-- Embedding of `interface CacheEntry` from `types.ts`. -/
structure CacheEntry where
  file_hash : String
  prompt_hash : String
  rule_id : String
  result : LintResult
  timestamp : String
deriving DecidableEq, Repr

/-- Embedding of `interface CacheStore` from `types.ts`: `entries` is a string-keyed
JS object, modelled as a partial map. -/
structure CacheStore where
  version : Nat
  entries : String → Option CacheEntry

namespace CacheManager

/-- The store `{ version: 1, entries: {} }` installed by the
`CacheManager` constructor and by every recovery path of `load`. -/
def emptyStore : CacheStore :=
  { version := 1, entries := fun _ => none }

/-- The cache key `` `${ruleId}:${filePath}` `` used by both `lookup` and
`store` (`cache-manager.ts` lines 65 and 90). -/
def cacheKey (ruleId filePath : String) : String :=
  ruleId ++ ":" ++ filePath

/-- Embedding of `CacheManager.lookup` (`cache-manager.ts` lines 59-78): absent entry
or a mismatch of either hash yields `none`. -/
def lookup (s : CacheStore) (ruleId filePath fileHash promptHash : String) :
    Option LintResult :=
  match s.entries (cacheKey ruleId filePath) with
  | none => none
  | some entry =>
    if entry.file_hash ≠ fileHash ∨ entry.prompt_hash ≠ promptHash then none
    else some entry.result

/-- Embedding of `CacheManager.store` (`cache-manager.ts` lines 83-99); the
`new Date().toISOString()` timestamp is passed in as `ts`. -/
def store (s : CacheStore) (ruleId filePath fileHash promptHash : String)
    (result : LintResult) (ts : String) : CacheStore :=
  { s with
    entries := fun k =>
      if k = cacheKey ruleId filePath then
        some { file_hash := fileHash, prompt_hash := promptHash,
               rule_id := ruleId, result := result, timestamp := ts }
      else s.entries k }

/-- Outcome of `readFileSync` on the cache file as observed by `load`:
the file is missing (`ENOENT`), reading fails with some other error, or
it has string content. -/
inductive ReadOutcome where
  | enoent
  | readFailed (msg : String)
  | content (s : String)

/-- Embedding of `CacheManager.load` (`cache-manager.ts` lines 18-45). `parse` models
`JSON.parse` followed by the `as CacheStore` cast: `none` when
`JSON.parse` throws on the content. Every failure path installs the
empty store. -/
def load (rd : ReadOutcome) (parse : String → Option CacheStore) : CacheStore :=
  match rd with
  | .enoent => emptyStore
  | .readFailed _ => emptyStore
  | .content s =>
    match parse s with
    | some st => st
    | none => emptyStore

end CacheManager

/-- The `provider` values relevant to `ai-client.ts` (`'openrouter' | 'ollama'`). -/
inductive Provider where
  | openrouter
  | ollama
deriving DecidableEq, Repr

namespace AIClient

/-- Decides whether the character list `needle` is a prefix of `hay`. -/
def prefixAt (needle hay : List Char) : Bool :=
  match needle, hay with
  | [], _ => true
  | _ :: _, [] => false
  | a :: as, b :: bs => a == b && prefixAt as bs

/-- Decides whether `needle` occurs contiguously anywhere in `hay`
(literal part of a `String.prototype.includes` / literal regex test). -/
def hasSub (needle : List Char) : List Char → Bool
  | [] => needle.isEmpty
  | c :: rest => prefixAt needle (c :: rest) || hasSub needle rest

/-- Decides whether `pre`, one arbitrary character, then `post` occur at
the head of `hay` (a regex literal with a single `.` wildcard). -/
def dotAt (pre post hay : List Char) : Bool :=
  prefixAt pre hay &&
    match hay.drop pre.length with
    | [] => false
    | _ :: rest => prefixAt post rest

/-- Decides whether `pre`, any one character, then `post` occur
contiguously anywhere in `hay`. -/
def hasDotSub (pre post : List Char) : List Char → Bool
  | [] => dotAt pre post []
  | c :: rest => dotAt pre post (c :: rest) || hasDotSub pre post rest

/-- Decides whether `hay` starts with `'5'` followed by two digits
(head case of the regex `5\d{2}`). -/
def fiveXXAt (hay : List Char) : Bool :=
  match hay with
  | '5' :: a :: b :: _ => a.isDigit && b.isDigit
  | _ => false

/-- Decides whether the regex `5\d{2}` matches anywhere in `hay`. -/
def hasFiveXX : List Char → Bool
  | [] => false
  | c :: rest => fiveXXAt (c :: rest) || hasFiveXX rest

/-- Character data of a string lowered character-wise; case-insensitive
regex tests on ASCII literals compare these. -/
def lowerChars (s : String) : List Char :=
  s.data.map Char.toLower

/-- Whitespace trimming on character data, mirroring JavaScript's
`String.prototype.trim`: drop whitespace from both ends. -/
def trimChars (l : List Char) : List Char :=
  ((l.dropWhile Char.isWhitespace).reverse.dropWhile Char.isWhitespace).reverse

/-- Constant `MAX_RETRY_ATTEMPTS` (`ai-client.ts` line 28). -/
def MAX_RETRY_ATTEMPTS : Nat := 3

/-- The `isAuthError` classification in `callApiWithRetry`
(`ai-client.ts` line 155-156):
`/401/.test(message) || /unauthorized/i.test(message) || /api key/i.test(message)`. -/
def isAuthError (m : String) : Bool :=
  hasSub "401".data m.data ||
  hasSub "unauthorized".data (lowerChars m) ||
  hasSub "api key".data (lowerChars m)

/-- Membership in `EMPTY_RESPONSE_ERRORS` (`ai-client.ts` line 29). -/
def isEmptyResponseError (m : String) : Bool :=
  m = "AI returned no content" || m = "AI returned empty content"

/-- The `isRetryable` classification in `callApiWithRetry`
(`ai-client.ts` lines 157-163): empty-response sentinel messages, or a
case-insensitive match of `429|rate.limit`, `5\d{2}|server.error`, or the
network/timeout alternation. -/
def isRetryable (m : String) : Bool :=
  isEmptyResponseError m ||
  hasSub "429".data (lowerChars m) ||
  hasDotSub "rate".data "limit".data (lowerChars m) ||
  hasFiveXX (lowerChars m) ||
  hasDotSub "server".data "error".data (lowerChars m) ||
  hasSub "timeout".data (lowerChars m) ||
  hasSub "timed out".data (lowerChars m) ||
  hasSub "econnreset".data (lowerChars m) ||
  hasSub "econnrefused".data (lowerChars m) ||
  hasSub "enotfound".data (lowerChars m) ||
  hasSub "eai_again".data (lowerChars m) ||
  hasSub "network".data (lowerChars m) ||
  hasSub "fetch failed".data (lowerChars m) ||
  hasSub "socket hang up".data (lowerChars m)

/-- The structured output `{pass, message, line}` required by
`lintResponseSchema` (`ai-client.ts` lines 22-26). -/
structure LintResponse where
  pass : Bool
  message : String
  line : Option Int
deriving DecidableEq, Repr

/-- Outcome of one `generateText` call: the call throws an `Error` with
some message, or resolves with an optional structured output. -/
inductive GenOutcome where
  | thrown (msg : String)
  | produced (output : Option LintResponse)

/-- One attempt of the `try` block of `callApiWithRetry`
(`ai-client.ts` lines 134-152): a missing output becomes the error
`'AI returned no content'`, a blank message the error
`'AI returned empty content'`, otherwise the output is returned. -/
def attemptResult (g : GenOutcome) : Except String LintResponse :=
  match g with
  | .thrown m => .error m
  | .produced none => .error "AI returned no content"
  | .produced (some out) =>
    if trimChars out.message.data = [] then .error "AI returned empty content"
    else .ok out

/-- Recursion core of `AIClient.callApiWithRetry` (`ai-client.ts` lines
129-173) with the `generateText` behaviour abstracted as an oracle
indexed by the attempt number; backoff delays are irrelevant to the
embedded value. The source recurses while `attempt < MAX_RETRY_ATTEMPTS`;
to keep the definition structurally recursive the strictly decreasing
quantity `MAX_RETRY_ATTEMPTS - attempt` is carried explicitly as `fuel`
(the `fuel = 0` fallback is unreachable whenever
`MAX_RETRY_ATTEMPTS - attempt ≤ fuel`, which `callApiWithRetry`
establishes). Returns the final outcome paired with the number of the
last attempt made. -/
def callApiGo (oracle : Nat → GenOutcome) (fuel attempt : Nat) :
    Except String LintResponse × Nat :=
  match attemptResult (oracle attempt) with
  | .ok r => (.ok r, attempt)
  | .error m =>
    if isAuthError m = false ∧ isRetryable m = true ∧
        attempt < MAX_RETRY_ATTEMPTS then
      match fuel with
      | fuel' + 1 => callApiGo oracle fuel' (attempt + 1)
      | 0 => (.error m, attempt)
    else
      (.error m, attempt)
termination_by structural fuel

/-- Embedding of `AIClient.callApiWithRetry` entered at attempt number `attempt`
(the source's default call is `attempt = 1`): the recursion core with
its exact remaining-attempt budget. -/
def callApiWithRetry (oracle : Nat → GenOutcome) (attempt : Nat) :
    Except String LintResponse × Nat :=
  callApiGo oracle (MAX_RETRY_ATTEMPTS - attempt) attempt

/-- The case-sensitive `error.message.includes` tests of the openrouter
rethrow branch of `AIClient.lint` (`ai-client.ts` lines 98-100). -/
def authIncludes (m : String) : Bool :=
  hasSub "401".data m.data ||
  hasSub "Unauthorized".data m.data ||
  hasSub "API key".data m.data

/-- The case-sensitive `error.message.includes` tests of the ollama
rethrow branch of `AIClient.lint` (`ai-client.ts` line 108). -/
def connIncludes (m : String) : Bool :=
  hasSub "ECONNREFUSED".data m.data ||
  hasSub "fetch failed".data m.data

/-- The `LintResult` literal of the success path of `AIClient.lint`
(`ai-client.ts` lines 81-91): `cached: false`, no `api_error`. -/
def okLintResult (job : LintJob) (durationMs : Nat) (response : LintResponse) :
    LintResult :=
  { rule_id := job.rule.id, rule_name := job.rule.name,
    file := job.filePath, severity := job.rule.severity,
    pass := response.pass, message := response.message,
    line := response.line, duration_ms := durationMs,
    cached := false, api_error := false }

/-- The degraded `LintResult` literal of the catch path of
`AIClient.lint` (`ai-client.ts` lines 115-125): `pass: false`,
`cached: false`, `api_error: true`. -/
def apiErrorLintResult (job : LintJob) (durationMs : Nat) (m : String) :
    LintResult :=
  { rule_id := job.rule.id, rule_name := job.rule.name,
    file := job.filePath, severity := job.rule.severity,
    pass := false, message := "API error: " ++ m,
    line := none, duration_ms := durationMs,
    cached := false, api_error := true }

/-- Embedding of `AIClient.lint` (`ai-client.ts` lines 62-127): `.ok r` models a
returned `LintResult`, `.error msg` models a thrown `Error`. The
`generateText` behaviour is the oracle, and the measured wall-clock
duration is `durationMs`. -/
def lint (provider : Provider) (providerUrl : Option String)
    (oracle : Nat → GenOutcome) (job : LintJob) (durationMs : Nat) :
    Except String LintResult :=
  match callApiWithRetry oracle 1 with
  | (.ok response, _) => .ok (okLintResult job durationMs response)
  | (.error m, _) =>
    if provider = .openrouter ∧ authIncludes m then
      .error "OPEN_ROUTER_KEY is invalid or missing"
    else if provider = .ollama ∧ connIncludes m then
      .error ("Cannot connect to Ollama at " ++
        (providerUrl.getD "http://localhost:11434/v1") ++ ". Is Ollama running?")
    else
      .ok (apiErrorLintResult job durationMs m)

end AIClient

/-- Embedding of `interface LintSummary` from `types.ts`. -/
structure LintSummary where
  total_files : Nat
  total_rules_applied : Nat
  passed : Nat
  errors : Nat
  warnings : Nat
  cached : Nat
  duration_ms : Nat
deriving DecidableEq, Repr

namespace LinterEngine

/-- The environment a `run` executes in: the injected collaborators of
`LinterEngine` plus the ambient effects it uses. `matcher` is
`RuleMatcher.matchFile`, `readFile` is `readFileSync`, `hash` is
`CacheManager.hash` (an uninterpreted digest), `client` is the
(deterministic) result of `AIClient.lint` per job, `timestamp` the
`new Date().toISOString()` value used by `CacheManager.store`, and
`durationMs` the measured wall-clock duration. -/
structure RunEnv where
  matcher : String → List LintRule
  readFile : String → String
  hash : String → String
  client : LintJob → LintResult
  timestamp : String
  durationMs : Nat

/-- The jobs one file path contributes (`linter-engine.ts` lines 43-69):
none when no rule matches, else one job per matching rule sharing the
file's content and content hash. -/
def jobsFor (env : RunEnv) (p : String) : List LintJob :=
  (env.matcher p).map fun rule =>
    { rule := rule, filePath := p, fileContent := env.readFile p,
      fileHash := env.hash (env.readFile p),
      promptHash := env.hash rule.prompt }

/-- The full job list of a run: the concatenation over `filePaths` of
each path's jobs, in input order. -/
def mkJobs (env : RunEnv) (filePaths : List String) : List LintJob :=
  filePaths.flatMap (jobsFor env)

/-- The `uniqueFiles` set size (`linter-engine.ts` lines 41-51): the
number of distinct input paths with at least one matching rule. -/
def uniqueFilesCount (env : RunEnv) (filePaths : List String) : Nat :=
  ((filePaths.filter fun p => !(env.matcher p).isEmpty).dedup).length

/-- The cache lookup the engine performs per job
(`linter-engine.ts` lines 78-83). -/
def jobLookup (cache : CacheStore) (j : LintJob) : Option LintResult :=
  CacheManager.lookup cache j.rule.id j.filePath j.fileHash j.promptHash

/-- The cache-hit results (`linter-engine.ts` lines 85-88): each hit is
cloned with `cached` forced to `true`, in job order. -/
def cachedResults (cache : CacheStore) (jobs : List LintJob) : List LintResult :=
  jobs.filterMap fun j => (jobLookup cache j).map fun r => { r with cached := true }

/-- The cache-miss jobs (`linter-engine.ts` lines 89-91), in job order. -/
def uncachedJobs (cache : CacheStore) (jobs : List LintJob) : List LintJob :=
  jobs.filter fun j => (jobLookup cache j).isNone

/-- The cache state after every miss job stored its fresh result
(`linter-engine.ts` line 100). With a deterministic client the final
store is independent of the completion order of the `p-limit` pool, so
the fold is taken in job order. -/
def finalCache (env : RunEnv) (cache : CacheStore) (jobs : List LintJob) :
    CacheStore :=
  (uncachedJobs cache jobs).foldl
    (fun st j =>
      CacheManager.store st j.rule.id j.filePath j.fileHash j.promptHash
        (env.client j) env.timestamp)
    cache

/-- One iteration of the counter loop of `LinterEngine.computeSummary`
(`linter-engine.ts` lines 139-151): the accumulator is
`(passed, errors, warnings, cached)` and the `if / else if / else`
chain increments exactly one of the first three counters. -/
def summaryStep (acc : Nat × Nat × Nat × Nat) (r : LintResult) :
    Nat × Nat × Nat × Nat :=
  let passed := if r.pass then acc.1 + 1 else acc.1
  let errors :=
    if ¬r.pass ∧ r.severity = .error then acc.2.1 + 1 else acc.2.1
  let warnings :=
    if ¬r.pass ∧ r.severity ≠ .error then acc.2.2.1 + 1 else acc.2.2.1
  let cachedCount := if r.cached then acc.2.2.2 + 1 else acc.2.2.2
  (passed, errors, warnings, cachedCount)

/-- Embedding of `LinterEngine.computeSummary` (`linter-engine.ts` lines 129-162),
with the counter loop rendered as a fold over the result list. -/
def computeSummary (results : List LintResult) (totalFiles durationMs : Nat) :
    LintSummary :=
  let c := results.foldl summaryStep (0, 0, 0, 0)
  { total_files := totalFiles, total_rules_applied := results.length,
    passed := c.1, errors := c.2.1, warnings := c.2.2.1,
    cached := c.2.2.2, duration_ms := durationMs }

/-- What `LinterEngine.run` returns, extended with the cache state it
passes to `CacheManager.save`. -/
structure RunOutput where
  results : List LintResult
  summary : LintSummary
  exitCode : Nat
  savedCache : CacheStore

/-- Embedding of `LinterEngine.run` (`linter-engine.ts` lines 30-127) after
`cache.load()`: `cache` is the loaded store, and the `p-limit` pool is
sequentialized (its results join in job order via `Promise.all`). -/
def run (env : RunEnv) (cache : CacheStore) (filePaths : List String) :
    RunOutput :=
  let jobs := mkJobs env filePaths
  let hits := cachedResults cache jobs
  let misses := uncachedJobs cache jobs
  let uncachedResults := misses.map env.client
  let allResults := hits ++ uncachedResults
  let summary :=
    computeSummary allResults (uniqueFilesCount env filePaths) env.durationMs
  let hasApiErrors := allResults.any fun r => r.api_error
  let exitCode := if summary.errors > 0 ∨ hasApiErrors then 1 else 0
  { results := allResults, summary := summary, exitCode := exitCode,
    savedCache := finalCache env cache jobs }

end LinterEngine

/-!
Spec-side characterizations (written from the specification's words, to
be compared with the source-derived `computeSummary`).
-/

/-- Spec-side predicate: a result counted as `passed` (`pass=true`). -/
def specPassed (r : LintResult) : Bool := r.pass

/-- Spec-side predicate: a result counted as an `error`
(`pass=false` and `severity=error`). -/
def specError (r : LintResult) : Bool :=
  !r.pass && r.severity == .error

/-- Spec-side predicate: a result counted as a `warning`
(`pass=false` and `severity=warning`). -/
def specWarning (r : LintResult) : Bool :=
  !r.pass && r.severity == .warning

/-- Spec-side predicate: a result counted as `cached` (`cached=true`). -/
def specCached (r : LintResult) : Bool := r.cached

/-!
Concrete data for the witness theorems.
-/

/-- Concrete rule for witnesses. -/
def ruleW : LintRule :=
  { id := "rw", name := "Rule W", severity := .warning, glob := "**",
    exclude := none, prompt := "pp", model := none }

/-- Concrete job for witnesses. -/
def jobW : LintJob :=
  { rule := ruleW, filePath := "f.ts", fileContent := "c",
    fileHash := "h", promptHash := "q" }

/-- Concrete structured response for witnesses. -/
def respW : AIClient.LintResponse :=
  { pass := true, message := "ok", line := none }

/-- Concrete fresh result for witnesses. -/
def resultW : LintResult :=
  { rule_id := "rw", rule_name := "Rule W", file := "f.ts",
    severity := .warning, pass := true, message := "ok", line := none,
    duration_ms := 5, cached := false, api_error := false }

/-- Oracle whose every attempt throws a transient timeout error. -/
def oracleTimeoutW : Nat → AIClient.GenOutcome := fun _ => .thrown "timeout"

/-- Oracle whose every attempt throws a non-retryable, non-auth error. -/
def oracleMalformedW : Nat → AIClient.GenOutcome :=
  fun _ => .thrown "malformed request body"

/-- Oracle whose every attempt throws an authentication error. -/
def oracleAuthW : Nat → AIClient.GenOutcome :=
  fun _ => .thrown "401 Unauthorized"

/-- Oracle whose every attempt throws an authentication-classified error
whose casing does not match the case-sensitive rethrow tests of `lint`. -/
def oracleAuthLowerW : Nat → AIClient.GenOutcome :=
  fun _ => .thrown "unauthorized access"

/-- Oracle failing attempt 1 with a non-retryable error and succeeding
from attempt 2 on. -/
def oracleMalformedThenOkW : Nat → AIClient.GenOutcome :=
  fun n => if n = 1 then .thrown "malformed request body"
           else .produced (some respW)

/-- Oracle whose first attempt already succeeds. -/
def oracleOkW : Nat → AIClient.GenOutcome := fun _ => .produced (some respW)

/-- Parse function of an unparseable cache file (JSON.parse throws). -/
def parseNoneW : String → Option CacheStore := fun _ => none

/-- Concrete client for witnesses: every job gets a fresh passing
result of duration 5. -/
def clientW : LintJob → LintResult := fun j => AIClient.okLintResult j 5 respW

/-- Concrete run environment for witnesses: every path matches exactly
`ruleW`, file content is `"c"`, the digest is the identity function. -/
def envW : LinterEngine.RunEnv :=
  { matcher := fun _ => [ruleW], readFile := fun _ => "c",
    hash := fun s => s, client := clientW, timestamp := "t",
    durationMs := 9 }

/-- The job the run of `envW` on `["f.ts"]` creates. -/
def jobRunW : LintJob :=
  { rule := ruleW, filePath := "f.ts", fileContent := "c",
    fileHash := "c", promptHash := "pp" }

/-- The cache entry that run stores for `jobRunW`. -/
def entryW : CacheEntry :=
  { file_hash := "c", prompt_hash := "pp", rule_id := "rw",
    result := AIClient.okLintResult jobRunW 5 respW, timestamp := "t" }

end AiLint

namespace AiLint

open CacheManager

theorem data_append_eq (a b : String) : (a ++ b).data = a.data ++ b.data :=
  rfl

theorem cacheKey_left_inj {rid₁ rid₂ fp : String}
    (h : cacheKey rid₁ fp = cacheKey rid₂ fp) : rid₁ = rid₂ := by
  have hd : rid₁.data ++ (":".data ++ fp.data) = rid₂.data ++ (":".data ++ fp.data) := by
    have := congrArg String.data h
    simpa [cacheKey, data_append_eq, List.append_assoc] using this
  have : rid₁.data = rid₂.data := List.append_cancel_right hd
  cases rid₁; cases rid₂; exact congrArg String.mk (by simpa using this)

theorem cacheKey_right_inj {rid fp₁ fp₂ : String}
    (h : cacheKey rid fp₁ = cacheKey rid fp₂) : fp₁ = fp₂ := by
  have hd : rid.data ++ (":".data ++ fp₁.data) = rid.data ++ (":".data ++ fp₂.data) := by
    have := congrArg String.data h
    simpa [cacheKey, data_append_eq, List.append_assoc] using this
  have h₂ : ":".data ++ fp₁.data = ":".data ++ fp₂.data := List.append_cancel_left hd
  have : fp₁.data = fp₂.data := List.append_cancel_left h₂
  cases fp₁; cases fp₂; exact congrArg String.mk (by simpa using this)

theorem lookup_store_same (s : CacheStore) (rid fp fh ph : String)
    (r : LintResult) (ts : String) :
    lookup (store s rid fp fh ph r ts) rid fp fh ph = some r := by
  simp [lookup, store]

theorem lookup_none_of_entry_none (s : CacheStore) (rid fp fh ph : String)
    (h : s.entries (cacheKey rid fp) = none) :
    lookup s rid fp fh ph = none := by
  simp [lookup, h]

theorem lookup_none_of_hash_mismatch (s : CacheStore) (rid fp fh ph : String)
    (e : CacheEntry) (he : s.entries (cacheKey rid fp) = some e)
    (hm : e.file_hash ≠ fh ∨ e.prompt_hash ≠ ph) :
    lookup s rid fp fh ph = none := by
  simp [lookup, he, hm]

/-- C1: Cache round-trip and conjunctive invalidation. After
`store(rule_id, file_path, file_hash, prompt_hash, r)`, a `lookup` with
the identical four arguments returns `r`; `lookup` returns `none`
whenever no entry exists under key `{rule_id}:{file_path}` or either
stored hash differs from the given one; and — starting from the empty
store — changing the file hash, the prompt hash, the rule id or the
file path alone yields `none`. -/
theorem claim_C1_cache_roundtrip_and_invalidation
    (s : CacheStore) (rid fp fh ph : String) (r : LintResult) (ts : String) :
    lookup (store s rid fp fh ph r ts) rid fp fh ph = some r
    ∧ (∀ s' rid' fp' fh' ph',
        s'.entries (cacheKey rid' fp') = none →
        lookup s' rid' fp' fh' ph' = none)
    ∧ (∀ s' rid' fp' fh' ph' e,
        s'.entries (cacheKey rid' fp') = some e →
        e.file_hash ≠ fh' ∨ e.prompt_hash ≠ ph' →
        lookup s' rid' fp' fh' ph' = none)
    ∧ (∀ fh', fh' ≠ fh →
        lookup (store s rid fp fh ph r ts) rid fp fh' ph = none)
    ∧ (∀ ph', ph' ≠ ph →
        lookup (store s rid fp fh ph r ts) rid fp fh ph' = none)
    ∧ (∀ rid', rid' ≠ rid →
        lookup (store emptyStore rid fp fh ph r ts) rid' fp fh ph = none)
    ∧ (∀ fp', fp' ≠ fp →
        lookup (store emptyStore rid fp fh ph r ts) rid fp' fh ph = none) := by
  refine ⟨lookup_store_same s rid fp fh ph r ts,
    fun s' rid' fp' fh' ph' h => lookup_none_of_entry_none s' rid' fp' fh' ph' h,
    fun s' rid' fp' fh' ph' e he hm =>
      lookup_none_of_hash_mismatch s' rid' fp' fh' ph' e he hm,
    ?_, ?_, ?_, ?_⟩
  · intro fh' h
    exact lookup_none_of_hash_mismatch _ rid fp fh' ph
      { file_hash := fh, prompt_hash := ph, rule_id := rid, result := r,
        timestamp := ts }
      (by simp [store]) (Or.inl (Ne.symm h))
  · intro ph' h
    exact lookup_none_of_hash_mismatch _ rid fp fh ph'
      { file_hash := fh, prompt_hash := ph, rule_id := rid, result := r,
        timestamp := ts }
      (by simp [store]) (Or.inr (Ne.symm h))
  · intro rid' h
    have hk : cacheKey rid' fp ≠ cacheKey rid fp :=
      fun hk => h (cacheKey_left_inj hk)
    exact lookup_none_of_entry_none _ rid' fp fh ph
      (by simp [store, emptyStore, hk])
  · intro fp' h
    have hk : cacheKey rid fp' ≠ cacheKey rid fp :=
      fun hk => h (cacheKey_right_inj hk)
    exact lookup_none_of_entry_none _ rid fp' fh ph
      (by simp [store, emptyStore, hk])

/-- Witness for C1: the round-trip and each single-argument change,
evaluated on the concrete store holding only the entry
`("r1", "f1", "fh", "ph", resultW)`. -/
theorem claim_C1_witness :
    lookup (store emptyStore "r1" "f1" "fh" "ph" resultW "t") "r1" "f1" "fh" "ph"
        = some resultW
    ∧ lookup (store emptyStore "r1" "f1" "fh" "ph" resultW "t") "r1" "f1" "fh2" "ph"
        = none
    ∧ lookup (store emptyStore "r1" "f1" "fh" "ph" resultW "t") "r1" "f1" "fh" "ph2"
        = none
    ∧ lookup (store emptyStore "r1" "f1" "fh" "ph" resultW "t") "r2" "f1" "fh" "ph"
        = none
    ∧ lookup (store emptyStore "r1" "f1" "fh" "ph" resultW "t") "r1" "f2" "fh" "ph"
        = none := by
  obtain ⟨h1, _, _, h4, h5, h6, h7⟩ :=
    claim_C1_cache_roundtrip_and_invalidation emptyStore "r1" "f1" "fh" "ph"
      resultW "t"
  exact ⟨h1, h4 "fh2" (by decide), h5 "ph2" (by decide),
    h6 "r2" (by decide), h7 "f2" (by decide)⟩

/-- C6: Cache load never fails the run. For a missing cache file, an
unreadable cache file, and unparseable content, `load` returns (rather
than raising — it is a total function) with the in-memory store in the
empty state `{version: 1, entries: {}}`, and every subsequent lookup
behaves as on the empty cache (returns `none`). -/
theorem claim_C6_cache_load_never_fails
    (parse : String → Option CacheStore) (msg content : String)
    (h : parse content = none) :
    load .enoent parse = emptyStore
    ∧ load (.readFailed msg) parse = emptyStore
    ∧ load (.content content) parse = emptyStore
    ∧ (∀ rid fp fh ph, lookup (load (.content content) parse) rid fp fh ph = none)
    ∧ (∀ rid fp fh ph, lookup emptyStore rid fp fh ph = none) := by
  have hc : load (.content content) parse = emptyStore := by
    simp [load, h]
  refine ⟨rfl, rfl, hc, ?_, ?_⟩
  · intro rid fp fh ph
    rw [hc]
    exact lookup_none_of_entry_none _ rid fp fh ph rfl
  · intro rid fp fh ph
    exact lookup_none_of_entry_none _ rid fp fh ph rfl

/-- Witness for C6: the three degenerate disk states with a concrete
always-failing parse, evaluated at a concrete lookup. -/
theorem claim_C6_witness :
    load .enoent parseNoneW = emptyStore
    ∧ load (.readFailed "EACCES") parseNoneW = emptyStore
    ∧ load (.content "notjson") parseNoneW = emptyStore
    ∧ lookup (load (.content "notjson") parseNoneW) "r1" "f1" "fh" "ph" = none := by
  obtain ⟨h1, h2, h3, h4, _⟩ :=
    claim_C6_cache_load_never_fails parseNoneW "EACCES" "notjson" rfl
  exact ⟨h1, h2, h3, h4 "r1" "f1" "fh" "ph"⟩

namespace AIClient

theorem callApiGo_ok {oracle : Nat → GenOutcome} {f a : Nat} {r : LintResponse}
    (h : attemptResult (oracle a) = .ok r) :
    callApiGo oracle f a = (.ok r, a) := by
  unfold callApiGo
  rw [h]

theorem callApiGo_stop {oracle : Nat → GenOutcome} {f a : Nat} {m : String}
    (h : attemptResult (oracle a) = .error m)
    (hc : ¬(isAuthError m = false ∧ isRetryable m = true ∧
        a < MAX_RETRY_ATTEMPTS)) :
    callApiGo oracle f a = (.error m, a) := by
  unfold callApiGo
  rw [h]
  simp [hc]

theorem callApiGo_step {oracle : Nat → GenOutcome} {f a : Nat} {m : String}
    (h : attemptResult (oracle a) = .error m)
    (h1 : isAuthError m = false) (h2 : isRetryable m = true)
    (h3 : a < MAX_RETRY_ATTEMPTS) :
    callApiGo oracle (f + 1) a = callApiGo oracle f (a + 1) := by
  conv_lhs => rw [callApiGo.eq_def]
  rw [h]
  simp [h1, h2, h3]

end AIClient

/-- C3: Retry budget. A job whose every attempt fails with a
transient-classified error (per the source's `isRetryable`: rate limit,
5xx, network/timeout, empty response) and never an auth-classified one
makes exactly 3 total attempts, surfacing the attempt-3 error; a job
whose first attempt fails with a non-retryable, non-authentication
error makes exactly 1 attempt. -/
theorem claim_C3_retry_budget :
    (∀ (oracle : Nat → AIClient.GenOutcome) (m₃ : String),
      (∀ n, ∃ m, AIClient.attemptResult (oracle n) = .error m ∧
          AIClient.isAuthError m = false ∧ AIClient.isRetryable m = true) →
      AIClient.attemptResult (oracle 3) = .error m₃ →
      AIClient.callApiWithRetry oracle 1 = (.error m₃, 3))
    ∧ (∀ (oracle : Nat → AIClient.GenOutcome) (m : String),
        AIClient.attemptResult (oracle 1) = .error m →
        AIClient.isAuthError m = false → AIClient.isRetryable m = false →
        AIClient.callApiWithRetry oracle 1 = (.error m, 1)) := by
  constructor
  · intro oracle m₃ hall h3
    obtain ⟨m1, e1, a1, r1⟩ := hall 1
    obtain ⟨m2, e2, a2, r2⟩ := hall 2
    show AIClient.callApiGo oracle 2 1 = (.error m₃, 3)
    rw [show (2 : Nat) = 1 + 1 from rfl,
      AIClient.callApiGo_step e1 a1 r1 (by norm_num [AIClient.MAX_RETRY_ATTEMPTS]),
      show (1 : Nat) = 0 + 1 from rfl,
      AIClient.callApiGo_step e2 a2 r2 (by norm_num [AIClient.MAX_RETRY_ATTEMPTS])]
    exact AIClient.callApiGo_stop h3
      (fun hc => by simp [AIClient.MAX_RETRY_ATTEMPTS] at hc)
  · intro oracle m h1 h2 h3
    exact AIClient.callApiGo_stop h1 (fun hc => by rw [h3] at hc; simp at hc)

/-- Witness for C3: a permanently timing-out oracle makes exactly 3
attempts; an oracle failing with a malformed-request error makes
exactly 1. -/
theorem claim_C3_witness :
    AIClient.callApiWithRetry oracleTimeoutW 1 = (.error "timeout", 3)
    ∧ AIClient.callApiWithRetry oracleMalformedW 1 =
        (.error "malformed request body", 1) := by
  refine ⟨claim_C3_retry_budget.1 oracleTimeoutW "timeout"
      (fun n => ⟨"timeout", rfl, by decide, by decide⟩) rfl,
    claim_C3_retry_budget.2 oracleMalformedW "malformed request body" rfl
      (by decide) (by decide)⟩

namespace AIClient

theorem prefixAt_map {f : Char → Char} :
    ∀ {n h : List Char}, prefixAt n h = true →
      prefixAt (n.map f) (h.map f) = true := by
  intro n
  induction n with
  | nil => intro h _; simp [prefixAt]
  | cons a as ih =>
    intro h hp
    cases h with
    | nil => simp [prefixAt] at hp
    | cons b bs =>
      simp only [prefixAt, Bool.and_eq_true, beq_iff_eq] at hp
      simp only [List.map_cons, prefixAt, Bool.and_eq_true, beq_iff_eq]
      exact ⟨by rw [hp.1], ih hp.2⟩

theorem hasSub_map {f : Char → Char} {n : List Char} :
    ∀ {h : List Char}, hasSub n h = true →
      hasSub (n.map f) (h.map f) = true := by
  intro h
  induction h with
  | nil =>
    intro hh
    simp only [hasSub, List.isEmpty_iff] at hh
    simp [hh, hasSub]
  | cons c rest ih =>
    intro hh
    simp only [hasSub, Bool.or_eq_true] at hh
    rcases hh with hh | hh
    · have := prefixAt_map (f := f) hh
      simp only [List.map_cons] at this
      simp [hasSub, this]
    · simp [hasSub, ih hh]

theorem authIncludes_eq_false {m : String} (h : isAuthError m = false) :
    authIncludes m = false := by
  simp only [isAuthError, Bool.or_eq_false_iff] at h
  obtain ⟨⟨h1, h2⟩, h3⟩ := h
  have hu : hasSub "Unauthorized".data m.data = false := by
    by_contra hc
    have hc' := hasSub_map (f := Char.toLower)
      (eq_true_of_ne_false hc)
    rw [show "Unauthorized".data.map Char.toLower = "unauthorized".data
        from by decide] at hc'
    exact absurd hc' (by simp [lowerChars] at h2 ⊢; exact h2)
  have hk : hasSub "API key".data m.data = false := by
    by_contra hc
    have hc' := hasSub_map (f := Char.toLower)
      (eq_true_of_ne_false hc)
    rw [show "API key".data.map Char.toLower = "api key".data
        from by decide] at hc'
    exact absurd hc' (by simp [lowerChars] at h3 ⊢; exact h3)
  simp [authIncludes, h1, hu, hk]

theorem connIncludes_eq_false {m : String} (h : isRetryable m = false) :
    connIncludes m = false := by
  simp only [isRetryable, Bool.or_eq_false_iff] at h
  obtain ⟨⟨⟨⟨⟨⟨⟨⟨⟨⟨⟨⟨⟨-, -⟩, -⟩, -⟩, -⟩, -⟩, -⟩, -⟩, h9⟩, -⟩, -⟩, -⟩, h13⟩, -⟩ := h
  have he : hasSub "ECONNREFUSED".data m.data = false := by
    by_contra hc
    have hc' := hasSub_map (f := Char.toLower)
      (eq_true_of_ne_false hc)
    rw [show "ECONNREFUSED".data.map Char.toLower = "econnrefused".data
        from by decide] at hc'
    exact absurd hc' (by simp [lowerChars] at h9 ⊢; exact h9)
  have hf : hasSub "fetch failed".data m.data = false := by
    by_contra hc
    have hc' := hasSub_map (f := Char.toLower)
      (eq_true_of_ne_false hc)
    rw [show "fetch failed".data.map Char.toLower = "fetch failed".data
        from by decide] at hc'
    exact absurd hc' (by simp [lowerChars] at h13 ⊢; exact h13)
  simp [connIncludes, he, hf]

end AIClient

/-- C4 (counterexample): the claim says an authentication failure makes
`lint` throw, never return a Result, regardless of provider. On the
code, `"401 Unauthorized"` and `"unauthorized access"` are both
auth-classified, yet with the ollama provider (first) and even with the
openrouter provider when the casing misses the case-sensitive `includes`
tests (second), `lint` returns a degraded `api_error` Result instead of
throwing. -/
theorem claim_C4_counterexample :
    AIClient.isAuthError "401 Unauthorized" = true
    ∧ AIClient.lint .ollama none oracleAuthW jobW 0 =
        .ok (AIClient.apiErrorLintResult jobW 0 "401 Unauthorized")
    ∧ AIClient.isAuthError "unauthorized access" = true
    ∧ AIClient.lint .openrouter none oracleAuthLowerW jobW 0 =
        .ok (AIClient.apiErrorLintResult jobW 0 "unauthorized access")
    ∧ (AIClient.apiErrorLintResult jobW 0 "401 Unauthorized").api_error = true :=
  ⟨by decide, rfl, by decide, rfl, rfl⟩

/-- C4 (amended): an authentication-classified failure is never retried
(the first attempt is the only one and its error propagates out of the
retry loop); when the provider is openrouter and the message passes the
case-sensitive `401`/`Unauthorized`/`API key` `includes` tests, `lint`
throws `OPEN_ROUTER_KEY is invalid or missing` and returns no Result;
with the ollama provider (message not matching its connection-failure
tests) the failure instead surfaces as a degraded `api_error` Result. -/
theorem claim_C4_auth_failure_amended
    (oracle : Nat → AIClient.GenOutcome) (m : String)
    (h1 : AIClient.attemptResult (oracle 1) = .error m)
    (h2 : AIClient.isAuthError m = true) :
    AIClient.callApiWithRetry oracle 1 = (.error m, 1)
    ∧ (∀ url job dur, AIClient.authIncludes m = true →
        AIClient.lint .openrouter url oracle job dur =
          .error "OPEN_ROUTER_KEY is invalid or missing")
    ∧ (∀ url job dur, AIClient.connIncludes m = false →
        AIClient.lint .ollama url oracle job dur =
          .ok (AIClient.apiErrorLintResult job dur m)
        ∧ (AIClient.apiErrorLintResult job dur m).api_error = true) := by
  have hstop : AIClient.callApiWithRetry oracle 1 = (.error m, 1) :=
    AIClient.callApiGo_stop h1 (fun hc => by rw [h2] at hc; simp at hc)
  refine ⟨hstop, ?_, ?_⟩
  · intro url job dur ha
    simp [AIClient.lint, hstop, ha]
  · intro url job dur hconn
    exact ⟨by simp [AIClient.lint, hstop, hconn], rfl⟩

/-- Witness for C4 (amended): the concrete auth error
`"401 Unauthorized"`: one attempt only, an openrouter run throws the
credential diagnostic, an ollama run yields the degraded Result. -/
theorem claim_C4_witness :
    AIClient.callApiWithRetry oracleAuthW 1 = (.error "401 Unauthorized", 1)
    ∧ AIClient.lint .openrouter none oracleAuthW jobW 0 =
        .error "OPEN_ROUTER_KEY is invalid or missing"
    ∧ AIClient.lint .ollama none oracleAuthW jobW 0 =
        .ok (AIClient.apiErrorLintResult jobW 0 "401 Unauthorized") := by
  obtain ⟨ha, hb, hc⟩ :=
    claim_C4_auth_failure_amended oracleAuthW "401 Unauthorized" rfl (by decide)
  exact ⟨ha, hb none jobW 0 (by decide), (hc none jobW 0 (by decide)).1⟩

/-- C7 (counterexample): the claim says a non-retryable, non-auth
failure is retried up to the 3-attempt budget. On the code such an error
is not retried at all: with an oracle whose attempt 1 throws a
malformed-request error and whose attempt 2 would succeed, the call
stops after exactly 1 attempt with the error. -/
theorem claim_C7_counterexample :
    AIClient.isAuthError "malformed request body" = false
    ∧ AIClient.isRetryable "malformed request body" = false
    ∧ AIClient.callApiWithRetry oracleMalformedThenOkW 1 =
        (.error "malformed request body", 1)
    ∧ AIClient.attemptResult (oracleMalformedThenOkW 2) = .ok respW :=
  ⟨by decide, by decide, rfl, rfl⟩

/-- C7 (amended): a job whose API call fails with an error that is
neither auth-classified nor transient-classified makes exactly 1 attempt
(no retry), and `lint` surfaces the failure as a degraded Result with
`api_error=true` under either provider. -/
theorem claim_C7_nonretryable_amended
    (oracle : Nat → AIClient.GenOutcome) (m : String) (prov : Provider)
    (url : Option String) (job : LintJob) (dur : Nat)
    (h1 : AIClient.attemptResult (oracle 1) = .error m)
    (h2 : AIClient.isAuthError m = false)
    (h3 : AIClient.isRetryable m = false) :
    AIClient.callApiWithRetry oracle 1 = (.error m, 1)
    ∧ AIClient.lint prov url oracle job dur =
        .ok (AIClient.apiErrorLintResult job dur m)
    ∧ (AIClient.apiErrorLintResult job dur m).api_error = true := by
  have hstop : AIClient.callApiWithRetry oracle 1 = (.error m, 1) :=
    AIClient.callApiGo_stop h1 (fun hc => by rw [h3] at hc; simp at hc)
  have ha := AIClient.authIncludes_eq_false h2
  have hc := AIClient.connIncludes_eq_false h3
  exact ⟨hstop, by simp [AIClient.lint, hstop, ha, hc], rfl⟩

/-- Witness for C7 (amended): the concrete non-retryable error
`"malformed request body"`: one attempt, degraded Result. -/
theorem claim_C7_witness :
    AIClient.callApiWithRetry oracleMalformedW 1 =
        (.error "malformed request body", 1)
    ∧ AIClient.lint .openrouter none oracleMalformedW jobW 0 =
        .ok (AIClient.apiErrorLintResult jobW 0 "malformed request body") := by
  obtain ⟨ha, hb, -⟩ :=
    claim_C7_nonretryable_amended oracleMalformedW "malformed request body"
      .openrouter none jobW 0 rfl (by decide) (by decide)
  exact ⟨ha, hb⟩

namespace LinterEngine

theorem run_results (env : RunEnv) (cache : CacheStore)
    (filePaths : List String) :
    (run env cache filePaths).results =
      cachedResults cache (mkJobs env filePaths) ++
        (uncachedJobs cache (mkJobs env filePaths)).map env.client :=
  rfl

theorem run_summary (env : RunEnv) (cache : CacheStore)
    (filePaths : List String) :
    (run env cache filePaths).summary =
      computeSummary (run env cache filePaths).results
        (uniqueFilesCount env filePaths) env.durationMs :=
  rfl

theorem run_savedCache (env : RunEnv) (cache : CacheStore)
    (filePaths : List String) :
    (run env cache filePaths).savedCache =
      finalCache env cache (mkJobs env filePaths) :=
  rfl

theorem run_exitCode (env : RunEnv) (cache : CacheStore)
    (filePaths : List String) :
    (run env cache filePaths).exitCode =
      if (run env cache filePaths).summary.errors > 0 ∨
          ((run env cache filePaths).results.any fun r => r.api_error) = true
      then 1 else 0 :=
  rfl

theorem foldl_summaryStep (l : List LintResult) (p e w c : Nat) :
    l.foldl summaryStep (p, e, w, c) =
      (p + l.countP specPassed, e + l.countP specError,
       w + l.countP specWarning, c + l.countP specCached) := by
  induction l generalizing p e w c with
  | nil => simp
  | cons r t ih =>
    simp only [List.foldl_cons, List.countP_cons]
    rcases r with ⟨rid, rname, file, sev, pass, msg, line, dur, cach, apie⟩
    cases pass <;> cases sev <;> cases cach <;>
      simp [summaryStep, specPassed, specError, specWarning, specCached,
        ih, Prod.ext_iff] <;>
      omega

theorem computeSummary_counts (results : List LintResult)
    (totalFiles durationMs : Nat) :
    (computeSummary results totalFiles durationMs).passed =
        results.countP specPassed
    ∧ (computeSummary results totalFiles durationMs).errors =
        results.countP specError
    ∧ (computeSummary results totalFiles durationMs).warnings =
        results.countP specWarning
    ∧ (computeSummary results totalFiles durationMs).cached =
        results.countP specCached
    ∧ (computeSummary results totalFiles durationMs).total_rules_applied =
        results.length
    ∧ (computeSummary results totalFiles durationMs).total_files =
        totalFiles := by
  have h := foldl_summaryStep results 0 0 0 0
  simp only [computeSummary, h]
  simp

theorem hits_misses_length (cache : CacheStore) (jobs : List LintJob) :
    (cachedResults cache jobs).length + (uncachedJobs cache jobs).length =
      jobs.length := by
  induction jobs with
  | nil => simp [cachedResults, uncachedJobs]
  | cons j t ih =>
    simp only [cachedResults, uncachedJobs] at ih ⊢
    cases h : jobLookup cache j with
    | none =>
      simp [List.filterMap_cons, List.filter_cons, h]
      omega
    | some r =>
      simp [List.filterMap_cons, List.filter_cons, h]
      omega

theorem run_results_length (env : RunEnv) (cache : CacheStore)
    (filePaths : List String) :
    (run env cache filePaths).results.length =
      (mkJobs env filePaths).length := by
  rw [run_results, List.length_append, List.length_map]
  exact hits_misses_length cache (mkJobs env filePaths)

theorem uniqueFilesCount_eq_card (env : RunEnv) (filePaths : List String) :
    uniqueFilesCount env filePaths =
      (filePaths.toFinset.filter fun p => env.matcher p ≠ []).card := by
  rw [uniqueFilesCount, ← List.card_toFinset, List.toFinset_filter]
  congr 1
  refine Finset.filter_congr ?_
  intro p _
  cases h : env.matcher p <;> simp [h]

theorem foldl_store_entries (env : RunEnv) (js : List LintJob) :
    ∀ (st : CacheStore) (k : String) (e : CacheEntry),
      ((js.foldl
          (fun s j =>
            CacheManager.store s j.rule.id j.filePath j.fileHash j.promptHash
              (env.client j) env.timestamp)
          st).entries k = some e) →
      st.entries k = some e ∨ ∃ j ∈ js, e.result = env.client j := by
  induction js with
  | nil => intro st k e h; exact Or.inl h
  | cons j t ih =>
    intro st k e h
    rcases ih _ k e h with h' | ⟨j', hj', he⟩
    · simp only [CacheManager.store] at h'
      by_cases hk : k = cacheKey j.rule.id j.filePath
      · rw [if_pos hk] at h'
        right
        refine ⟨j, by simp, ?_⟩
        have := (Option.some.inj h').symm
        rw [this]
      · rw [if_neg hk] at h'
        exact Or.inl h'
    · exact Or.inr ⟨j', by simp [hj'], he⟩

end LinterEngine

/-- C2: Exit-code determinism. For every run, the exit code is exactly 1
iff the computed summary has `errors > 0` or some Result in the merged
list carries `api_error = true`, and exactly 0 otherwise. -/
theorem claim_C2_exit_code_determinism (env : LinterEngine.RunEnv)
    (cache : CacheStore) (filePaths : List String) :
    ((LinterEngine.run env cache filePaths).exitCode = 1 ↔
      ((LinterEngine.run env cache filePaths).summary.errors > 0 ∨
        ∃ r ∈ (LinterEngine.run env cache filePaths).results,
          r.api_error = true))
    ∧ ((LinterEngine.run env cache filePaths).exitCode = 0 ↔
      ¬((LinterEngine.run env cache filePaths).summary.errors > 0 ∨
        ∃ r ∈ (LinterEngine.run env cache filePaths).results,
          r.api_error = true)) := by
  have he := LinterEngine.run_exitCode env cache filePaths
  have key : ((LinterEngine.run env cache filePaths).summary.errors > 0 ∨
      (((LinterEngine.run env cache filePaths).results.any
        fun r => r.api_error) = true)) ↔
      ((LinterEngine.run env cache filePaths).summary.errors > 0 ∨
        ∃ r ∈ (LinterEngine.run env cache filePaths).results,
          r.api_error = true) := by
    apply or_congr Iff.rfl
    exact List.any_eq_true
  by_cases h : ((LinterEngine.run env cache filePaths).summary.errors > 0 ∨
      (((LinterEngine.run env cache filePaths).results.any
        fun r => r.api_error) = true))
  · rw [he, if_pos h]
    exact ⟨⟨fun _ => key.mp h, fun _ => rfl⟩,
      ⟨fun h10 => absurd h10 (by norm_num),
       fun hn => absurd (key.mp h) hn⟩⟩
  · rw [he, if_neg h]
    exact ⟨⟨fun h01 => absurd h01 (by norm_num),
      fun hp => absurd (key.mpr hp) h⟩,
      ⟨fun _ hp => h (key.mpr hp), fun _ => rfl⟩⟩

/-- C5: Summary correctness. For every run, `passed` counts the Results
with `pass=true`, `errors` those with `pass=false` and severity `error`,
`warnings` those with `pass=false` and severity `warning`, `cached`
those with `cached=true`, `total_rules_applied` is the total Result
count, and `total_files` is the number of distinct input paths with at
least one matching rule. -/
theorem claim_C5_summary_correctness (env : LinterEngine.RunEnv)
    (cache : CacheStore) (filePaths : List String) :
    (LinterEngine.run env cache filePaths).summary.passed =
        (LinterEngine.run env cache filePaths).results.countP specPassed
    ∧ (LinterEngine.run env cache filePaths).summary.errors =
        (LinterEngine.run env cache filePaths).results.countP specError
    ∧ (LinterEngine.run env cache filePaths).summary.warnings =
        (LinterEngine.run env cache filePaths).results.countP specWarning
    ∧ (LinterEngine.run env cache filePaths).summary.cached =
        (LinterEngine.run env cache filePaths).results.countP specCached
    ∧ (LinterEngine.run env cache filePaths).summary.total_rules_applied =
        (LinterEngine.run env cache filePaths).results.length
    ∧ (LinterEngine.run env cache filePaths).summary.total_files =
        (filePaths.toFinset.filter fun p => env.matcher p ≠ []).card := by
  obtain ⟨h1, h2, h3, h4, h5, h6⟩ :=
    LinterEngine.computeSummary_counts
      (LinterEngine.run env cache filePaths).results
      (LinterEngine.uniqueFilesCount env filePaths) env.durationMs
  rw [LinterEngine.run_summary]
  exact ⟨h1, h2, h3, h4, h5, by
    rw [h6, LinterEngine.uniqueFilesCount_eq_card]⟩

/-- C9: Duplicate input paths are not deduplicated in job expansion.
A path occurring twice that matches `m ≥ 1` rules yields `2m` jobs,
`2m` Results, `total_rules_applied = 2m`, while `total_files` counts
the path exactly once. -/
theorem claim_C9_duplicate_paths_not_deduped (env : LinterEngine.RunEnv)
    (cache : CacheStore) (p : String) (h : env.matcher p ≠ []) :
    (LinterEngine.mkJobs env [p, p]).length = 2 * (env.matcher p).length
    ∧ (LinterEngine.run env cache [p, p]).results.length =
        2 * (env.matcher p).length
    ∧ (LinterEngine.run env cache [p, p]).summary.total_rules_applied =
        2 * (env.matcher p).length
    ∧ (LinterEngine.run env cache [p, p]).summary.total_files = 1 := by
  have hjobs : (LinterEngine.mkJobs env [p, p]).length =
      2 * (env.matcher p).length := by
    simp [LinterEngine.mkJobs, LinterEngine.jobsFor]
    omega
  have hres : (LinterEngine.run env cache [p, p]).results.length =
      2 * (env.matcher p).length := by
    rw [LinterEngine.run_results_length, hjobs]
  have hfiles : (LinterEngine.run env cache [p, p]).summary.total_files = 1 := by
    have hne : (env.matcher p).isEmpty = false := by
      simpa [List.isEmpty_iff] using h
    rw [LinterEngine.run_summary]
    have := (LinterEngine.computeSummary_counts
      (LinterEngine.run env cache [p, p]).results
      (LinterEngine.uniqueFilesCount env [p, p]) env.durationMs).2.2.2.2.2
    rw [this]
    simp [LinterEngine.uniqueFilesCount, List.filter_cons, hne,
      List.dedup_cons_of_mem]
  refine ⟨hjobs, hres, ?_, hfiles⟩
  rw [LinterEngine.run_summary]
  rw [(LinterEngine.computeSummary_counts
    (LinterEngine.run env cache [p, p]).results
    (LinterEngine.uniqueFilesCount env [p, p]) env.durationMs).2.2.2.2.1]
  exact hres

/-- Witness for C9: the concrete environment whose matcher returns one
rule for every path, run on the duplicated path list. -/
theorem claim_C9_witness :
    (LinterEngine.mkJobs envW ["f.ts", "f.ts"]).length =
        2 * (envW.matcher "f.ts").length
    ∧ (LinterEngine.run envW emptyStore ["f.ts", "f.ts"]).results.length =
        2 * (envW.matcher "f.ts").length
    ∧ (LinterEngine.run envW emptyStore
        ["f.ts", "f.ts"]).summary.total_rules_applied =
        2 * (envW.matcher "f.ts").length
    ∧ (LinterEngine.run envW emptyStore ["f.ts", "f.ts"]).summary.total_files
        = 1 :=
  claim_C9_duplicate_paths_not_deduped envW emptyStore "f.ts" (by decide)

/-- C10: Persisted cache entries always record `cached=false`: every
`LintResult` returned by `AIClient.lint` has `cached=false` (both the
success and the `api_error` path), and every entry of the cache state a
run saves is either untouched from the loaded store or holds a freshly
executed client result — so, with any client whose results carry
`cached=false`, its stored result has `cached=false`. -/
theorem claim_C10_persisted_entries_not_cached :
    (∀ (prov : Provider) (url : Option String)
        (oracle : Nat → AIClient.GenOutcome) (job : LintJob) (dur : Nat)
        (r : LintResult),
      AIClient.lint prov url oracle job dur = .ok r → r.cached = false)
    ∧ (∀ (env : LinterEngine.RunEnv) (cache : CacheStore)
        (filePaths : List String),
        (∀ j, (env.client j).cached = false) →
        ∀ k e,
          (LinterEngine.run env cache filePaths).savedCache.entries k = some e →
          cache.entries k = some e ∨ e.result.cached = false) := by
  constructor
  · intro prov url oracle job dur r h
    unfold AIClient.lint at h
    rcases hres : AIClient.callApiWithRetry oracle 1 with ⟨res, n⟩
    rw [hres] at h
    cases res with
    | ok response =>
      simp only [Except.ok.injEq] at h
      rw [← h]
      rfl
    | error m =>
      by_cases h1 : prov = .openrouter ∧ AIClient.authIncludes m
      · simp [h1] at h
      · by_cases h2 : prov = .ollama ∧ AIClient.connIncludes m
        · simp [h1, h2] at h
        · simp only [h1, h2, if_false] at h
          simp only [Except.ok.injEq] at h
          rw [← h]
          rfl
  · intro env cache filePaths hc k e h
    rw [LinterEngine.run_savedCache] at h
    rcases LinterEngine.foldl_store_entries env
      (LinterEngine.uncachedJobs cache (LinterEngine.mkJobs env filePaths))
      cache k e h with h' | ⟨j, -, he⟩
    · exact Or.inl h'
    · right
      rw [he]
      exact hc j

/-- Witness for C10: the success path of `lint` yields `cached=false`,
and the entry the concrete run of `envW` stores for its single job is
fresh (`cached=false`). -/
theorem claim_C10_witness :
    (AIClient.okLintResult jobW 7 respW).cached = false
    ∧ (emptyStore.entries (cacheKey "rw" "f.ts") = some entryW
        ∨ entryW.result.cached = false) := by
  refine ⟨claim_C10_persisted_entries_not_cached.1 .openrouter none oracleOkW
      jobW 7 (AIClient.okLintResult jobW 7 respW) rfl, ?_⟩
  exact claim_C10_persisted_entries_not_cached.2 envW emptyStore ["f.ts"]
    (fun j => rfl) (cacheKey "rw" "f.ts") entryW rfl

end AiLint
